import Mathlib

/-!
Verification of the evoli experimental gameplay systems
(src/systems/experimental/topplegrass.rs and src/systems/experimental/wind_control.rs).

Modelling conventions:

* `f32` values are modelled exactly: by `ℚ` where the code only performs
  rational arithmetic and comparisons (the spawn timer, the gravity
  integrator, the 5% random threshold), and by `ℝ` where the code calls
  trigonometric functions or square roots (vector norms, angles, the wind
  rotation).  Every finite `f32` is a rational number; f32 arithmetic is
  modelled as exact arithmetic.
* `f32::is_sign_negative` applied to a value is modelled as `< 0`.  This is
  faithful for every value that can actually reach those call sites: by
  IEEE 754 (round-to-nearest) a difference of finite operands that is
  exactly zero is `+0.0`, whose sign is positive, and no negative zero is
  ever stored in `secs_to_next_spawn` (it starts at `+0.0` and is reset to
  `1.0`) or in the z velocity (it is set to `0.0`, to a nonnegative kick,
  or to a difference of finite operands).
* `rand` draws are passed in as explicit parameters: `gen_range(lo, hi)`
  becomes a function argument together with the hypothesis that its value
  lies in the half-open interval `[lo, hi)`, and `gen::<f32>()` becomes a
  plain argument drawn from `[0, 1)`.
* `nalgebra`'s `Vector2::angle` is embedded following its implementation:
  it returns `0` when either vector has norm zero, and otherwise the
  arc-cosine of the clamped normalized dot product.
* The `specs` storage contract used by `TopplingSystem::run` is embedded as
  a small world model: a `join` that iterates the live entities holding the
  required components, and an `insert` that succeeds exactly on live
  entities (a `WriteStorage::insert` fails only with `WrongGeneration`, on
  a dead entity).
-/

open scoped Classical

namespace Evoli

/-! ## Constants (topplegrass.rs lines 21-32) -/

/-- `SPAWN_INTERVAL`: a new topplegrass entity is spawned periodically, this is
the period in seconds. -/
def SPAWN_INTERVAL : ℚ := 1

/-- `HEIGHT`: at which height the topplegrass entity should spawn. -/
def HEIGHT : ℚ := 0.5

/-! ## Vectors (nalgebra `Vector2<f32>` / `Vector3<f32>`) -/

/-- A two-dimensional vector, nalgebra `Vector2`. -/
structure Vec2 (α : Type) where
  x : α
  y : α
deriving DecidableEq

/-- A three-dimensional vector, nalgebra `Vector3`. -/
structure Vec3 (α : Type) where
  x : α
  y : α
  z : α
deriving DecidableEq

/-- nalgebra `Vector2::norm` (`magnitude`): the Euclidean norm. -/
noncomputable def norm2 (v : Vec2 ℝ) : ℝ :=
  Real.sqrt (v.x * v.x + v.y * v.y)

/-- nalgebra `Vector3::norm` (`magnitude`): the Euclidean norm. -/
noncomputable def magnitude3 (v : Vec3 ℝ) : ℝ :=
  Real.sqrt (v.x * v.x + v.y * v.y + v.z * v.z)

/-- The `Movement` component: a velocity vector and a maximum speed. -/
structure Movement (α : Type) where
  velocity : Vec3 α
  max_movement_speed : α

/-- The `Wind` resource: a two-dimensional wind vector. -/
structure Wind where
  wind : Vec2 ℝ

/-- The `WorldBounds` resource: the borders of the world. -/
structure WorldBounds where
  left : ℝ
  right : ℝ
  bottom : ℝ
  top : ℝ

/-! ## TopplegrassSpawnSystem (topplegrass.rs lines 35-126) -/

/-- `TopplegrassSpawnSystem::ready_to_spawn` (topplegrass.rs lines 82-90).
Subtracts `delta_seconds` from `secs_to_next_spawn`; if the result is
sign-negative the timer is reset to `SPAWN_INTERVAL` and the function
returns true.  Returns `(fired, new secs_to_next_spawn)`.
`is_sign_negative` is modelled as `< 0` (see the module comment: under
IEEE 754 round-to-nearest, an exactly-zero difference of finite operands is
`+0.0`, which is not sign-negative, and the stored state is never `-0.0`). -/
def ready_to_spawn (secs_to_next_spawn delta_seconds : ℚ) : Bool × ℚ :=
  let s := secs_to_next_spawn - delta_seconds
  if s < 0 then (true, SPAWN_INTERVAL) else (false, s)

/-- Iterated ticks of the spawn timer: from a given `secs_to_next_spawn`
state, feed the listed per-frame `delta_seconds` values one tick at a time
(threading the state exactly as the `&mut self` field is threaded across
calls to `run`) and record for each tick whether the system spawned. -/
def runTimer : ℚ → List ℚ → List Bool
  | _, [] => []
  | s, d :: ds =>
    let r := ready_to_spawn s d
    r.1 :: runTimer r.2 ds

/-- nalgebra `Vector2::angle` (called by `wind_towards_direction`): zero when
either vector has norm zero, otherwise the arc-cosine of the normalized dot
product, clamped into the domain of `acos`. -/
noncomputable def vangle (v w : Vec2 ℝ) : ℝ :=
  let n1 := norm2 v
  let n2 := norm2 w
  if n1 = 0 ∨ n2 = 0 then 0
  else
    let cang := (v.x * w.x + v.y * w.y) / (n1 * n2)
    if 1 < cang then 0
    else if cang < -1 then Real.pi
    else Real.arccos cang

/-- `TopplegrassSpawnSystem::wind_towards_direction` (topplegrass.rs lines
123-125): true if and only if the wind vector is roughly in line with the
given cardinal direction, within a margin of 1/4 pi radians. -/
def wind_towards_direction (wind cardinal_direction : Vec2 ℝ) : Prop :=
  |vangle wind cardinal_direction| < Real.pi / 4

/-- `TopplegrassSpawnSystem::gen_spawn_location` (topplegrass.rs lines
96-119).  The `thread_rng` calls `rng.gen_range(lo, hi)` are modelled by the
explicit argument `rng : ℝ → ℝ → ℝ`; callers hypothesize that its value lies
in `[lo, hi)`. -/
noncomputable def gen_spawn_location (wind : Wind) (bounds : WorldBounds)
    (rng : ℝ → ℝ → ℝ) : Vec3 ℝ :=
  if wind_towards_direction wind.wind ⟨1, 0⟩ then
    ⟨bounds.left, rng bounds.bottom bounds.top, (HEIGHT : ℝ)⟩
  else if wind_towards_direction wind.wind ⟨0, 1⟩ then
    ⟨rng bounds.left bounds.right, bounds.bottom, (HEIGHT : ℝ)⟩
  else if wind_towards_direction wind.wind ⟨-1, 0⟩ then
    ⟨bounds.right, rng bounds.bottom bounds.top, (HEIGHT : ℝ)⟩
  else
    ⟨rng bounds.left bounds.right, bounds.top, (HEIGHT : ℝ)⟩

/-! ## GravitySystem (topplegrass.rs lines 176-211) -/

/-- The body of `GravitySystem::run` (topplegrass.rs lines 190-210) for one
joined entity, i.e. one entity that carries `FreeFallTag` (the join is over
`(&entities, &mut movements, &mut transforms, &freefalls)`).  Returns the
updated movement, the updated translation, and whether the entity keeps its
`FreeFallTag` (`false` means it is collected into `no_longer_falling` and the
tag is removed).  `velocity.z.is_sign_negative()` is modelled as `< 0` (see
the module comment). -/
def gravity_step (movement : Movement ℚ) (translation : Vec3 ℚ)
    (delta_seconds : ℚ) : Movement ℚ × Vec3 ℚ × Bool :=
  if translation.z ≤ HEIGHT ∧ movement.velocity.z < 0 then
    ({ movement with velocity := { movement.velocity with z := 0 } },
     { translation with z := HEIGHT }, false)
  else
    ({ movement with velocity :=
        { movement.velocity with z := movement.velocity.z - 4 * delta_seconds } },
     translation, true)

/-! ## TopplingSystem (topplegrass.rs lines 128-174) -/

/-- The free-fall transition of `TopplingSystem::run` (topplegrass.rs lines
157-172) for one entity carrying `Movement` and `TopplegrassTag`.
`free_falling` is whether the entity already carries `FreeFallTag`: the join
`(&entities, &mut movements, &topples, !&freefalls)` skips such entities
entirely, so they are returned unchanged.  `r` models `rng.gen::<f32>()` and
`factor` models `rng.gen_range(0.4, 0.7)`.  Returns the updated movement and
whether the entity carries `FreeFallTag` after the run. -/
noncomputable def toppling_transition (movement : Movement ℝ)
    (free_falling : Bool) (r factor : ℝ) : Movement ℝ × Bool :=
  if free_falling then (movement, true)
  else if r < 0.05 then
    ({ movement with velocity :=
        { movement.velocity with z := magnitude3 movement.velocity * factor } },
     true)
  else (movement, false)

/-- World model for the entity bookkeeping of `TopplingSystem::run`:
the live entities of the `Entities` resource, and for each component
storage whether an entity holds the component. -/
structure TopplingWorld where
  alive : List ℕ
  has_movement : ℕ → Bool
  has_topplegrass : ℕ → Bool
  has_free_fall : ℕ → Bool

/-- The entities iterated by the join
`(&entities, &mut movements, &topples, !&freefalls)`: live entities holding
`Movement` and `TopplegrassTag` but not `FreeFallTag`. -/
def joined_candidates (w : TopplingWorld) : List ℕ :=
  w.alive.filter fun e =>
    w.has_movement e && w.has_topplegrass e && !w.has_free_fall e

/-- The `free_falling` list collected by `TopplingSystem::run`: the joined
entities whose random draw `rng.gen::<f32>()` (modelled by `draw`) is below
0.05. -/
def free_falling_of (w : TopplingWorld) (draw : ℕ → ℚ) : List ℕ :=
  (joined_candidates w).filter fun e => decide (draw e < 0.05)

/-- `specs`' `WriteStorage::<FreeFallTag>::insert`: succeeds exactly on a
live entity (it fails only with `WrongGeneration`, i.e. on a dead entity);
the error case models the `.expect("Unable to add obstacle to entity")`
panic branch. -/
def insert_free_fall (w : TopplingWorld) (e : ℕ) : Except String TopplingWorld :=
  if e ∈ w.alive then
    Except.ok { w with has_free_fall := fun e2 => if e2 = e then true else w.has_free_fall e2 }
  else Except.error "Unable to add obstacle to entity"

/-- The `for entity in free_falling` loop of `TopplingSystem::run`: insert
the tag for each collected entity in order, stopping at the first failure
(the `expect` panic). -/
def insert_free_fall_list (w : TopplingWorld) : List ℕ → Except String TopplingWorld
  | [] => Except.ok w
  | e :: es =>
    match insert_free_fall w e with
    | Except.ok w2 => insert_free_fall_list w2 es
    | Except.error msg => Except.error msg

/-- The tag-insertion phase of `TopplingSystem::run`: collect `free_falling`
from the join, then insert `FreeFallTag` for each collected entity. -/
def toppling_run_inserts (w : TopplingWorld) (draw : ℕ → ℚ) :
    Except String TopplingWorld :=
  insert_free_fall_list w (free_falling_of w draw)

/-! ## DebugWindControlSystem (wind_control.rs lines 20-39) -/

/-- `f32::atan2`: `atan2 y x` is the angle of the point `(x, y)`, embedded as
the complex argument. -/
noncomputable def atan2 (y x : ℝ) : ℝ :=
  Complex.arg ⟨x, y⟩

/-- `DebugWindControlSystem::handle_action` (wind_control.rs lines 21-38),
restricted to its effect on the wind vector (the `println!` has no effect on
the wind).  The Rust `match` on the action string with a wildcard arm is an
equality test against `"ChangeWindDirection"`. -/
noncomputable def handle_action (action : String) (wind : Vec2 ℝ) : Vec2 ℝ :=
  if action = "ChangeWindDirection" then
    let old_wind_angle := atan2 wind.y wind.x
    let new_wind_angle := old_wind_angle + Real.pi / 8
    let magnitude := norm2 wind
    ⟨magnitude * Real.cos new_wind_angle, magnitude * Real.sin new_wind_angle⟩
  else wind

/-- amethyst `InputEvent<StringBindings>`, restricted to what the system
distinguishes: `ActionPressed(action_name)` and every other variant (the
`if let` in `run` skips the rest). -/
inductive InputEvent where
  | actionPressed (action_name : String)
  | other

/-- `DebugWindControlSystem::run` (wind_control.rs lines 55-64), together
with the system's `input_reader_id` state.  The shrev `EventChannel` is
modelled as the list of all events ever written and the `ReaderId` as a
cursor index into it: `input_events.read(reader)` yields the events written
since the cursor and advances the cursor to the end of the channel.  Each
`ActionPressed` event is fed to `handle_action`; other events are skipped.
Returns the new cursor and the new wind. -/
noncomputable def wind_control_run (events : List InputEvent) (cursor : ℕ)
    (wind : Vec2 ℝ) : ℕ × Vec2 ℝ :=
  (events.length,
   (events.drop cursor).foldl
     (fun w e => match e with
       | InputEvent.actionPressed action_name => handle_action action_name w
       | InputEvent.other => w) wind)

/-! ## Helper lemmas -/

/-- Between two consecutive timer resets, a spawn at tick index `j` requires
the deltas consumed since the reset to sum to more than the starting state. -/
lemma runTimer_spawn_sum (ds : List ℚ) :
    ∀ (s : ℚ) (j : ℕ) (tail : List Bool),
      runTimer s ds = List.replicate j false ++ true :: tail →
      s < (ds.take (j + 1)).sum := by
  induction ds with
  | nil =>
    intro s j tail h
    rw [runTimer] at h
    exact absurd h.symm (List.append_ne_nil_of_right_ne_nil _ (by simp))
  | cons d ds ih =>
    intro s j tail h
    by_cases hsd : s - d < 0
    · cases j with
      | zero =>
        simp only [List.take, List.sum_cons, List.sum_nil, add_zero]
        linarith
      | succ j =>
        rw [runTimer, ready_to_spawn] at h
        simp only [hsd, if_pos] at h
        simp [List.replicate_succ] at h
    · cases j with
      | zero =>
        rw [runTimer, ready_to_spawn] at h
        simp only [hsd, if_neg, if_false] at h
        simp at h
      | succ j =>
        rw [runTimer, ready_to_spawn] at h
        simp only [hsd, if_neg, if_false, List.replicate_succ, List.cons_append,
          List.cons.injEq] at h
        have hrec := ih (s - d) j tail h.2
        have : (ds.take (j + 1)).sum ≤ ((d :: ds).take (j + 1 + 1)).sum - d := by
          simp [List.take_succ_cons]
        linarith

/-- Inserting the free-fall tag for a list of entities that are all alive
never reaches the error branch, and does not change the set of live
entities. -/
lemma insert_free_fall_list_ok (l : List ℕ) :
    ∀ w : TopplingWorld, (∀ e ∈ l, e ∈ w.alive) →
      ∃ w2, insert_free_fall_list w l = Except.ok w2 ∧ w2.alive = w.alive := by
  induction l with
  | nil => exact fun w _ => ⟨w, rfl, rfl⟩
  | cons e es ih =>
    intro w h
    have he : e ∈ w.alive := h e (List.mem_cons_self e es)
    have hstep : insert_free_fall_list w (e :: es)
        = insert_free_fall_list
            { w with has_free_fall :=
                fun e2 => if e2 = e then true else w.has_free_fall e2 } es := by
      rw [insert_free_fall_list, insert_free_fall, if_pos he]
    rw [hstep]
    exact ih _ (fun e2 he2 => h e2 (List.mem_cons_of_mem e he2))

/-! ## Claims -/

/-- C2: the spawn timer fires every `SPAWN_INTERVAL` = 1.0 seconds:
`ready_to_spawn` subtracts `delta_seconds` from the remaining time and
returns true exactly when the remainder becomes negative, in which case it
resets the remaining time to `SPAWN_INTERVAL`; for every sequence of
positive frame deltas, consecutive spawns are separated by at least
`SPAWN_INTERVAL` seconds of accumulated delta time (after a spawn the state
is `SPAWN_INTERVAL`, so the next spawn, at tick index `j` of the following
ticks, needs the accumulated delta of ticks `0..j` to reach it). -/
theorem spawn_timer_period :
    (∀ s d : ℚ, ((ready_to_spawn s d).1 = true ↔ s - d < 0)
      ∧ (s - d < 0 → (ready_to_spawn s d).2 = SPAWN_INTERVAL))
    ∧ ∀ (ds : List ℚ) (j : ℕ) (tail : List Bool),
        (∀ d ∈ ds, 0 < d) →
        runTimer SPAWN_INTERVAL ds = List.replicate j false ++ true :: tail →
        SPAWN_INTERVAL ≤ (ds.take (j + 1)).sum := by
  constructor
  · intro s d
    by_cases hsd : s - d < 0 <;> simp [ready_to_spawn, hsd]
  · intro ds j tail _ h
    exact le_of_lt (runTimer_spawn_sum ds SPAWN_INTERVAL j tail h)

/-- Witness for C2: with frame deltas of 0.6 s the timer, fresh from a
reset, fires on the second tick, and the accumulated delta 1.2 s is at
least `SPAWN_INTERVAL`. -/
theorem spawn_timer_period_witness :
    ((0.6 : ℚ) ∈ ([0.6, 0.6] : List ℚ) → (0 : ℚ) < 0.6)
    ∧ SPAWN_INTERVAL ≤ (([0.6, 0.6] : List ℚ).take (1 + 1)).sum :=
  ⟨fun _ => by norm_num,
   spawn_timer_period.2 [0.6, 0.6] 1 []
     (by intro d hd; simp only [List.mem_cons, List.not_mem_nil, or_false] at hd
         rcases hd with h | h <;> rw [h] <;> norm_num)
     (by norm_num [runTimer, ready_to_spawn, SPAWN_INTERVAL])⟩

/-- C5: `GravitySystem` is a bounded one-axis integrator.  For an entity
carrying `FreeFallTag` (i.e. one joined entity): if its translation z is at
most `HEIGHT` and its z velocity is sign-negative, the run sets translation
z to exactly `HEIGHT`, sets velocity z to 0, and removes the tag; otherwise
it decreases velocity z by `4.0 * delta_seconds` and keeps the tag.  The x
and y components of translation and velocity are never modified. -/
theorem gravity_step_spec (movement : Movement ℚ) (translation : Vec3 ℚ)
    (d : ℚ) :
    ((gravity_step movement translation d).1.velocity.x = movement.velocity.x
      ∧ (gravity_step movement translation d).1.velocity.y = movement.velocity.y
      ∧ (gravity_step movement translation d).2.1.x = translation.x
      ∧ (gravity_step movement translation d).2.1.y = translation.y)
    ∧ (translation.z ≤ HEIGHT ∧ movement.velocity.z < 0 →
        (gravity_step movement translation d).2.1.z = HEIGHT
        ∧ (gravity_step movement translation d).1.velocity.z = 0
        ∧ (gravity_step movement translation d).2.2 = false)
    ∧ (¬(translation.z ≤ HEIGHT ∧ movement.velocity.z < 0) →
        (gravity_step movement translation d).1.velocity.z
          = movement.velocity.z - 4 * d
        ∧ (gravity_step movement translation d).2.1 = translation
        ∧ (gravity_step movement translation d).2.2 = true) := by
  by_cases h : translation.z ≤ HEIGHT ∧ movement.velocity.z < 0 <;>
    simp [gravity_step, h]

/-- Witness for C5: a free-falling entity at z = 0.25 with downward z
velocity -1 lands: its translation z is clamped to `HEIGHT`. -/
theorem gravity_step_spec_witness :
    (gravity_step ⟨⟨1, 2, -1⟩, 7/4⟩ ⟨3, 4, 1/4⟩ (1/10)).2.1.z = HEIGHT :=
  ((gravity_step_spec ⟨⟨1, 2, -1⟩, 7/4⟩ ⟨3, 4, 1/4⟩ (1/10)).2.1
    (by constructor <;> norm_num [HEIGHT])).1

/-- C8: the unwrap-on-insert never fails: every entity collected into the
`free_falling` list comes from the join over the live entities of the same
run, inserting the tag does not change which entities are alive, so every
`freefalls.insert` succeeds and the `expect("Unable to add obstacle to
entity")` panic branch is unreachable, whatever the world and the random
draws. -/
theorem toppling_insert_never_fails (w : TopplingWorld) (draw : ℕ → ℚ) :
    ∃ w2, toppling_run_inserts w draw = Except.ok w2 := by
  obtain ⟨w2, hok, _⟩ := insert_free_fall_list_ok (free_falling_of w draw) w
    (fun e he => List.mem_of_mem_filter (List.mem_of_mem_filter he))
  exact ⟨w2, hok⟩

/-- C7 counterexample: the spawn system is not stateless per tick. Two
consecutive invocations of `run` with identical inputs (frame delta 0.5 s,
same storages and resources) produce different effects: starting from the
default state, the first tick spawns and the second does not, because
`secs_to_next_spawn` is carried across ticks in `&mut self`. -/
theorem spawn_not_stateless :
    runTimer 0 [1/2, 1/2] = [true, false] := by
  norm_num [runTimer, ready_to_spawn, SPAWN_INTERVAL]

/-- C7 amended: not every system is stateless per tick; two of the four
carry internal state across ticks on which their per-tick effect depends.
`TopplegrassSpawnSystem` carries `secs_to_next_spawn`: there is a state and
a positive frame delta for which the tick spawns, while the immediately
following tick, given the identical frame delta, does not.
`DebugWindControlSystem` carries `input_reader_id`, an event-channel read
cursor that `run` advances: there are a channel content and a wind for
which the first invocation changes the wind while the immediately following
invocation, on the identical channel content and wind, leaves it unchanged.
(`TopplingSystem` and `GravitySystem` have no fields and are modelled as
functions of the current tick's inputs alone.) -/
theorem per_tick_effect_depends_on_state :
    (∃ s d : ℚ, 0 < d ∧ (ready_to_spawn s d).1 = true
      ∧ (ready_to_spawn (ready_to_spawn s d).2 d).1 = false)
    ∧ ∃ (events : List InputEvent) (wind : Vec2 ℝ),
        (wind_control_run events 0 wind).2 ≠ wind
        ∧ (wind_control_run events (wind_control_run events 0 wind).1 wind).2
            = wind := by
  constructor
  · exact ⟨0, 1/2, by norm_num, by norm_num [ready_to_spawn],
      by norm_num [ready_to_spawn, SPAWN_INTERVAL]⟩
  · refine ⟨[InputEvent.actionPressed "ChangeWindDirection"], ⟨1, 0⟩, ?_, ?_⟩
    · have hsin : (0:ℝ) < Real.sin (Real.pi / 8) :=
        Real.sin_pos_of_pos_of_lt_pi (by positivity) (by linarith [Real.pi_pos])
      have h1 : norm2 ⟨1, 0⟩ = (1:ℝ) := by
        rw [show norm2 (⟨1, 0⟩ : Vec2 ℝ) = Real.sqrt (1 * 1 + 0 * 0) from rfl]
        norm_num
      have ha : atan2 (0:ℝ) 1 = 0 := by
        rw [atan2, show (⟨1, 0⟩ : ℂ) = 1 from rfl, Complex.arg_one]
      have hrun : (wind_control_run
            [InputEvent.actionPressed "ChangeWindDirection"] 0 ⟨1, 0⟩).2
          = ⟨Real.cos (Real.pi / 8), Real.sin (Real.pi / 8)⟩ := by
        show handle_action "ChangeWindDirection" ⟨1, 0⟩ = _
        simp [handle_action, ha, h1]
      rw [hrun]
      intro hcon
      rw [Vec2.mk.injEq] at hcon
      linarith [hcon.2, hsin]
    · rfl

/-- C10 counterexample: on the very first tick after construction with the
default state (`secs_to_next_spawn = 0.0`) and `delta_seconds = 0.0`,
`ready_to_spawn` returns false, not true: `0.0 - 0.0` is `+0.0` under IEEE
754 round-to-nearest (an exactly-zero difference of finite operands has
positive sign), so `is_sign_negative` is false. -/
theorem first_tick_zero_delta_no_spawn :
    (ready_to_spawn 0 0).1 = false := by
  norm_num [ready_to_spawn]

/-- C10 amended: on the very first tick after `TopplegrassSpawnSystem` is
constructed with its default state (`secs_to_next_spawn = 0.0`),
`ready_to_spawn` returns true for every `delta_seconds > 0.0` — so a
topplegrass spawn is scheduled on the first frame with a positive delta
rather than after one full `SPAWN_INTERVAL` — and it resets the timer to
`SPAWN_INTERVAL`.  At `delta_seconds = 0.0` it returns false, because
`0.0 - 0.0` is `+0.0`, whose sign is positive. -/
theorem first_tick_spawns (d : ℚ) (hd : 0 < d) :
    ready_to_spawn 0 d = (true, SPAWN_INTERVAL) := by
  simp [ready_to_spawn, hd]

/-- Witness for C10: at a first-frame delta of 1 second the default-state
timer fires and resets. -/
theorem first_tick_spawns_witness :
    ready_to_spawn 0 1 = (true, SPAWN_INTERVAL) :=
  first_tick_spawns 1 (by norm_num)

/-- C9: for every action name other than "ChangeWindDirection",
`handle_action` leaves the wind vector unchanged: the wildcard match arm
performs no effect. -/
theorem handle_action_wildcard (action : String) (wind : Vec2 ℝ)
    (h : action ≠ "ChangeWindDirection") : handle_action action wind = wind := by
  simp [handle_action, h]

/-- Witness for C9: the action "Jump" leaves the wind (1, 2) unchanged. -/
theorem handle_action_wildcard_witness :
    handle_action "Jump" ⟨1, 2⟩ = ⟨1, 2⟩ :=
  handle_action_wildcard "Jump" ⟨1, 2⟩ (by decide)

/-- The norm of a vector written in polar form with nonnegative radius. -/
lemma norm2_polar (m θ : ℝ) (hm : 0 ≤ m) :
    norm2 ⟨m * Real.cos θ, m * Real.sin θ⟩ = m := by
  show Real.sqrt (m * Real.cos θ * (m * Real.cos θ)
    + m * Real.sin θ * (m * Real.sin θ)) = m
  have h : m * Real.cos θ * (m * Real.cos θ) + m * Real.sin θ * (m * Real.sin θ)
      = m ^ 2 * (Real.cos θ ^ 2 + Real.sin θ ^ 2) := by ring
  rw [h, Real.cos_sq_add_sin_sq, mul_one, Real.sqrt_sq hm]

/-- C4: `handle_action` preserves the magnitude of the wind vector, for
every action name and every wind vector: the "ChangeWindDirection" branch
is a pure rotation (it rescales the unit vector of the new angle by the old
magnitude), and every other branch leaves the wind unchanged. -/
theorem handle_action_preserves_magnitude (action : String) (wind : Vec2 ℝ) :
    norm2 (handle_action action wind) = norm2 wind := by
  by_cases h : action = "ChangeWindDirection"
  · have hb : handle_action action wind
        = ⟨norm2 wind * Real.cos (atan2 wind.y wind.x + Real.pi / 8),
           norm2 wind * Real.sin (atan2 wind.y wind.x + Real.pi / 8)⟩ := by
      simp [handle_action, h]
    rw [hb, norm2_polar (norm2 wind) _ (Real.sqrt_nonneg _)]
  · rw [handle_action, if_neg h]

/-- The polar coordinates recovered by `atan2` and the norm reproduce the
cartesian coordinates. -/
lemma polar_coords (wind : Vec2 ℝ) :
    norm2 wind * Real.cos (atan2 wind.y wind.x) = wind.x
    ∧ norm2 wind * Real.sin (atan2 wind.y wind.x) = wind.y := by
  have habs : norm2 wind = Complex.abs ⟨wind.x, wind.y⟩ := by
    rw [Complex.abs_apply, Complex.normSq_mk]
    exact rfl
  by_cases hz : (⟨wind.x, wind.y⟩ : ℂ) = 0
  · have hx : wind.x = 0 := congrArg Complex.re hz
    have hy : wind.y = 0 := congrArg Complex.im hz
    have hm : norm2 wind = 0 := by rw [habs, hz, map_zero]
    rw [hm, hx, hy, zero_mul, zero_mul]
    exact ⟨rfl, rfl⟩
  · have hm0 : Complex.abs ⟨wind.x, wind.y⟩ ≠ 0 := Complex.abs.ne_zero hz
    constructor
    · rw [habs, atan2, Complex.cos_arg hz, ← mul_div_assoc,
        mul_div_cancel_left₀ _ hm0]
    · rw [habs, atan2, Complex.sin_arg, ← mul_div_assoc,
        mul_div_cancel_left₀ _ hm0]

/-- C3: invoking `handle_action` with the action name "ChangeWindDirection"
rotates the wind vector counter-clockwise by pi/8 radians: the new wind
equals `(m*cos(a + pi/8), m*sin(a + pi/8))` where `a = atan2(wind.y,
wind.x)` and `m = |wind|` — which is exactly the counter-clockwise rotation
of the old vector by pi/8. -/
theorem change_wind_direction_rotates (wind : Vec2 ℝ) :
    handle_action "ChangeWindDirection" wind
      = ⟨norm2 wind * Real.cos (atan2 wind.y wind.x + Real.pi / 8),
         norm2 wind * Real.sin (atan2 wind.y wind.x + Real.pi / 8)⟩
    ∧ handle_action "ChangeWindDirection" wind
      = ⟨wind.x * Real.cos (Real.pi / 8) - wind.y * Real.sin (Real.pi / 8),
         wind.x * Real.sin (Real.pi / 8) + wind.y * Real.cos (Real.pi / 8)⟩ := by
  have heq : handle_action "ChangeWindDirection" wind
      = ⟨norm2 wind * Real.cos (atan2 wind.y wind.x + Real.pi / 8),
         norm2 wind * Real.sin (atan2 wind.y wind.x + Real.pi / 8)⟩ := by
    simp [handle_action]
  refine ⟨heq, ?_⟩
  rw [heq]
  obtain ⟨hcos, hsin⟩ := polar_coords wind
  rw [Real.cos_add, Real.sin_add]
  congr 1
  · rw [mul_sub, ← mul_assoc, ← mul_assoc, hcos, hsin]
  · rw [mul_add, ← mul_assoc, ← mul_assoc, hcos, hsin, add_comm]

/-- C6: the falling/not-falling transition of `TopplingSystem`.  An entity
that does not carry `FreeFallTag` acquires it exactly when its random draw
satisfies `r < 0.05`, in which case its z velocity is set to the magnitude
of its velocity vector times the random factor drawn from [0.4, 0.7) (so
the kick lies between 0.4 and 0.7 times the magnitude), the other velocity
components being untouched; when the draw fails nothing changes; entities
already carrying `FreeFallTag` are never touched (the join excludes them),
so they are never given a new upward kick. -/
theorem toppling_transition_spec (movement : Movement ℝ) (r factor : ℝ)
    (hf : 0.4 ≤ factor ∧ factor < 0.7) :
    ((toppling_transition movement false r factor).2 = true ↔ r < 0.05)
    ∧ (r < 0.05 →
        (toppling_transition movement false r factor).1.velocity.z
          = magnitude3 movement.velocity * factor
        ∧ magnitude3 movement.velocity * 0.4
            ≤ (toppling_transition movement false r factor).1.velocity.z
        ∧ (toppling_transition movement false r factor).1.velocity.z
            ≤ magnitude3 movement.velocity * 0.7
        ∧ (toppling_transition movement false r factor).1.velocity.x
            = movement.velocity.x
        ∧ (toppling_transition movement false r factor).1.velocity.y
            = movement.velocity.y)
    ∧ (¬r < 0.05 → toppling_transition movement false r factor = (movement, false))
    ∧ toppling_transition movement true r factor = (movement, true) := by
  have hmag : 0 ≤ magnitude3 movement.velocity := Real.sqrt_nonneg _
  refine ⟨?_, ?_, ?_, ?_⟩
  · by_cases hr : r < 0.05 <;> simp [toppling_transition, hr]
  · intro hr
    have hb : toppling_transition movement false r factor
        = ({ movement with velocity :=
              { movement.velocity with
                  z := magnitude3 movement.velocity * factor } }, true) := by
      simp [toppling_transition, hr]
    rw [hb]
    exact ⟨rfl, mul_le_mul_of_nonneg_left hf.1 hmag,
      mul_le_mul_of_nonneg_left hf.2.le hmag, rfl, rfl⟩
  · intro hr
    simp [toppling_transition, hr]
  · simp [toppling_transition]

/-- Witness for C6: with a draw of 0.01 and a factor of 0.5 a rolling
entity with velocity (3, 4, 0) starts free-falling. -/
theorem toppling_transition_spec_witness :
    (toppling_transition ⟨⟨3, 4, 0⟩, 2⟩ false (1/100) (1/2)).2 = true
      ↔ (1/100 : ℝ) < 0.05 :=
  (toppling_transition_spec ⟨⟨3, 4, 0⟩, 2⟩ (1/100) (1/2) (by norm_num)).1

/-- A nonzero vector has positive norm. -/
lemma norm2_pos (v : Vec2 ℝ) (h : ¬(v.x = 0 ∧ v.y = 0)) : 0 < norm2 v := by
  rw [show norm2 v = Real.sqrt (v.x * v.x + v.y * v.y) from rfl, Real.sqrt_pos]
  rcases not_and_or.1 h with hx | hy
  · nlinarith [mul_self_pos.2 hx, mul_self_nonneg v.y]
  · nlinarith [mul_self_pos.2 hy, mul_self_nonneg v.x]

/-- The arc-cosine of a cosine value is below pi/4 exactly when the cosine
value exceeds the cosine of pi/4. -/
lemma arccos_lt_pi_div_four {c : ℝ} (h1 : -1 ≤ c) (h2 : c ≤ 1) :
    Real.arccos c < Real.pi / 4 ↔ Real.sqrt 2 / 2 < c := by
  constructor
  · intro h
    have hc := Real.cos_lt_cos_of_nonneg_of_le_pi (Real.arccos_nonneg c)
      (by linarith [Real.pi_pos]) h
    rwa [Real.cos_pi_div_four, Real.cos_arccos h1 h2] at hc
  · intro h
    by_contra hle
    push_neg at hle
    have hc := Real.cos_le_cos_of_nonneg_of_le_pi (by positivity)
      (Real.arccos_le_pi c) hle
    rw [Real.cos_pi_div_four, Real.cos_arccos h1 h2] at hc
    linarith

/-- Comparing a scaled square root to a number: squaring both sides. -/
lemma sqrt_half_bound {s t : ℝ} (hs : 0 < s) :
    Real.sqrt 2 / 2 * Real.sqrt s < t ↔ 0 < t ∧ s < 2 * (t * t) := by
  have hss : 0 < Real.sqrt s := Real.sqrt_pos.2 hs
  constructor
  · intro h
    have ht : 0 < t := lt_trans (by positivity) h
    refine ⟨ht, ?_⟩
    have hsq := mul_self_lt_mul_self (by positivity) h
    have key : Real.sqrt 2 / 2 * Real.sqrt s * (Real.sqrt 2 / 2 * Real.sqrt s)
        = s / 2 := by
      have e : Real.sqrt 2 / 2 * Real.sqrt s * (Real.sqrt 2 / 2 * Real.sqrt s)
          = Real.sqrt 2 * Real.sqrt 2 * (Real.sqrt s * Real.sqrt s) / 4 := by
        ring
      rw [e, Real.mul_self_sqrt (by norm_num : (0:ℝ) ≤ 2),
        Real.mul_self_sqrt hs.le]
      ring
    rw [key] at hsq
    linarith
  · rintro ⟨ht, hlt⟩
    have h1 : Real.sqrt s < Real.sqrt (2 * (t * t)) := Real.sqrt_lt_sqrt hs.le hlt
    have h2 : Real.sqrt (2 * (t * t)) = Real.sqrt 2 * t := by
      rw [Real.sqrt_mul (by norm_num : (0:ℝ) ≤ 2), Real.sqrt_mul_self ht.le]
    rw [h2] at h1
    have h3 : Real.sqrt 2 / 2 * Real.sqrt s < Real.sqrt 2 / 2 * (Real.sqrt 2 * t) :=
      mul_lt_mul_of_pos_left h1 (by positivity)
    have h4 : Real.sqrt 2 / 2 * (Real.sqrt 2 * t) = t := by
      rw [div_mul_eq_mul_div, ← mul_assoc,
        Real.mul_self_sqrt (by norm_num : (0:ℝ) ≤ 2)]
      ring
    rwa [h4] at h3

/-- The angle test against a unit direction, reduced to a dot-product
threshold: for a nonzero wind, the angle to a unit vector is within pi/4
exactly when the dot product exceeds cos(pi/4) times the wind's norm. -/
lemma towards_iff_aux (w d : Vec2 ℝ) (hw : ¬(w.x = 0 ∧ w.y = 0))
    (hd : norm2 d = 1) :
    wind_towards_direction w d
      ↔ Real.sqrt 2 / 2 * norm2 w < w.x * d.x + w.y * d.y := by
  have hn : 0 < norm2 w := norm2_pos w hw
  have hdd : d.x * d.x + d.y * d.y = 1 := by
    have h0 : 0 ≤ d.x * d.x + d.y * d.y :=
      add_nonneg (mul_self_nonneg _) (mul_self_nonneg _)
    have h1 := Real.sq_sqrt h0
    rw [show Real.sqrt (d.x * d.x + d.y * d.y) = norm2 d from rfl, hd] at h1
    linarith [h1]
  have hww : norm2 w * norm2 w = w.x * w.x + w.y * w.y :=
    Real.mul_self_sqrt (add_nonneg (mul_self_nonneg _) (mul_self_nonneg _))
  have hdd' : (w.x * w.x + w.y * w.y) * (d.x * d.x + d.y * d.y)
      = w.x * w.x + w.y * w.y := by rw [hdd, mul_one]
  have hcs : (w.x * d.x + w.y * d.y) * (w.x * d.x + w.y * d.y)
      ≤ norm2 w * norm2 w := by
    nlinarith [sq_nonneg (w.x * d.y - w.y * d.x), hdd', hww]
  have hn1 : norm2 w ≠ 0 := ne_of_gt hn
  have hn2 : norm2 d ≠ 0 := by rw [hd]; norm_num
  have hcang_le : (w.x * d.x + w.y * d.y) / (norm2 w * norm2 d) ≤ 1 := by
    rw [hd, mul_one, div_le_one hn]
    nlinarith [hcs, hn]
  have hcang_ge : (-1 : ℝ) ≤ (w.x * d.x + w.y * d.y) / (norm2 w * norm2 d) := by
    rw [hd, mul_one, le_div_iff₀ hn]
    nlinarith [hcs, hn]
  simp only [wind_towards_direction, vangle]
  rw [if_neg (by push_neg; exact ⟨hn1, hn2⟩), if_neg (not_lt.2 hcang_le),
    if_neg (not_lt.2 hcang_ge), abs_of_nonneg (Real.arccos_nonneg _),
    arccos_lt_pi_div_four hcang_ge hcang_le, hd, mul_one, lt_div_iff₀ hn]

/-- A nonzero vector has positive squared norm. -/
lemma sq_norm_pos (w : Vec2 ℝ) (hw : ¬(w.x = 0 ∧ w.y = 0)) :
    0 < w.x * w.x + w.y * w.y := by
  rcases not_and_or.1 hw with hx | hy
  · nlinarith [mul_self_pos.2 hx, mul_self_nonneg w.y]
  · nlinarith [mul_self_pos.2 hy, mul_self_nonneg w.x]

/-- The wind blows towards east (within pi/4 of (1, 0)) exactly when its x
component is positive and dominates the y component in absolute value. -/
lemma towards_east (w : Vec2 ℝ) (hw : ¬(w.x = 0 ∧ w.y = 0)) :
    wind_towards_direction w ⟨1, 0⟩ ↔ 0 < w.x ∧ w.y * w.y < w.x * w.x := by
  have hd : norm2 (⟨1, 0⟩ : Vec2 ℝ) = 1 := by
    rw [show norm2 (⟨1, 0⟩ : Vec2 ℝ) = Real.sqrt (1 * 1 + 0 * 0) from rfl]
    norm_num
  rw [towards_iff_aux w ⟨1, 0⟩ hw hd,
    show w.x * (⟨1, 0⟩ : Vec2 ℝ).x + w.y * (⟨1, 0⟩ : Vec2 ℝ).y = w.x by
      show w.x * 1 + w.y * 0 = w.x; ring,
    show norm2 w = Real.sqrt (w.x * w.x + w.y * w.y) from rfl,
    sqrt_half_bound (sq_norm_pos w hw)]
  constructor
  · rintro ⟨h1, h2⟩; exact ⟨h1, by linarith⟩
  · rintro ⟨h1, h2⟩; exact ⟨h1, by linarith⟩

/-- The wind blows towards north (within pi/4 of (0, 1)) exactly when its y
component is positive and dominates the x component in absolute value. -/
lemma towards_north (w : Vec2 ℝ) (hw : ¬(w.x = 0 ∧ w.y = 0)) :
    wind_towards_direction w ⟨0, 1⟩ ↔ 0 < w.y ∧ w.x * w.x < w.y * w.y := by
  have hd : norm2 (⟨0, 1⟩ : Vec2 ℝ) = 1 := by
    rw [show norm2 (⟨0, 1⟩ : Vec2 ℝ) = Real.sqrt (0 * 0 + 1 * 1) from rfl]
    norm_num
  rw [towards_iff_aux w ⟨0, 1⟩ hw hd,
    show w.x * (⟨0, 1⟩ : Vec2 ℝ).x + w.y * (⟨0, 1⟩ : Vec2 ℝ).y = w.y by
      show w.x * 0 + w.y * 1 = w.y; ring,
    show norm2 w = Real.sqrt (w.x * w.x + w.y * w.y) from rfl,
    sqrt_half_bound (sq_norm_pos w hw)]
  constructor
  · rintro ⟨h1, h2⟩; exact ⟨h1, by linarith⟩
  · rintro ⟨h1, h2⟩; exact ⟨h1, by linarith⟩

/-- The wind blows towards west (within pi/4 of (-1, 0)) exactly when its x
component is negative and dominates the y component in absolute value. -/
lemma towards_west (w : Vec2 ℝ) (hw : ¬(w.x = 0 ∧ w.y = 0)) :
    wind_towards_direction w ⟨-1, 0⟩ ↔ w.x < 0 ∧ w.y * w.y < w.x * w.x := by
  have hd : norm2 (⟨-1, 0⟩ : Vec2 ℝ) = 1 := by
    rw [show norm2 (⟨-1, 0⟩ : Vec2 ℝ) = Real.sqrt ((-1) * (-1) + 0 * 0) from rfl]
    norm_num
  rw [towards_iff_aux w ⟨-1, 0⟩ hw hd,
    show w.x * (⟨-1, 0⟩ : Vec2 ℝ).x + w.y * (⟨-1, 0⟩ : Vec2 ℝ).y = -w.x by
      show w.x * (-1) + w.y * 0 = -w.x; ring,
    show norm2 w = Real.sqrt (w.x * w.x + w.y * w.y) from rfl,
    sqrt_half_bound (sq_norm_pos w hw)]
  constructor
  · rintro ⟨h1, h2⟩; exact ⟨by linarith, by nlinarith⟩
  · rintro ⟨h1, h2⟩; exact ⟨by linarith, by nlinarith⟩

/-- C1: for every nonzero wind vector and all world bounds,
`gen_spawn_location` returns a point lying on exactly one of the four world
borders — the one the wind blows away from (upwind of the world center):
x = bounds.left when the wind's angle to (1, 0) is within pi/4, y =
bounds.bottom when within pi/4 of (0, 1), x = bounds.right when within pi/4
of (-1, 0), and y = bounds.top otherwise — with the free coordinate drawn
from the corresponding bounds interval and z always equal to `HEIGHT`
(0.5).  Exactly one of the three angle conditions can hold (they demand the
dominant wind component be a different one or of a different sign), so
exactly one branch of the characterization applies. -/
theorem gen_spawn_location_upwind (wind : Wind) (bounds : WorldBounds)
    (rng : ℝ → ℝ → ℝ)
    (hrng : ∀ lo hi : ℝ, lo < hi → lo ≤ rng lo hi ∧ rng lo hi < hi)
    (hlr : bounds.left < bounds.right) (hbt : bounds.bottom < bounds.top)
    (hw : ¬(wind.wind.x = 0 ∧ wind.wind.y = 0)) :
    (gen_spawn_location wind bounds rng).z = (HEIGHT : ℝ)
    ∧ ((wind_towards_direction wind.wind ⟨1, 0⟩
          ∧ ¬wind_towards_direction wind.wind ⟨0, 1⟩
          ∧ ¬wind_towards_direction wind.wind ⟨-1, 0⟩
          ∧ (gen_spawn_location wind bounds rng).x = bounds.left
          ∧ bounds.bottom ≤ (gen_spawn_location wind bounds rng).y
          ∧ (gen_spawn_location wind bounds rng).y < bounds.top)
      ∨ (¬wind_towards_direction wind.wind ⟨1, 0⟩
          ∧ wind_towards_direction wind.wind ⟨0, 1⟩
          ∧ ¬wind_towards_direction wind.wind ⟨-1, 0⟩
          ∧ (gen_spawn_location wind bounds rng).y = bounds.bottom
          ∧ bounds.left ≤ (gen_spawn_location wind bounds rng).x
          ∧ (gen_spawn_location wind bounds rng).x < bounds.right)
      ∨ (¬wind_towards_direction wind.wind ⟨1, 0⟩
          ∧ ¬wind_towards_direction wind.wind ⟨0, 1⟩
          ∧ wind_towards_direction wind.wind ⟨-1, 0⟩
          ∧ (gen_spawn_location wind bounds rng).x = bounds.right
          ∧ bounds.bottom ≤ (gen_spawn_location wind bounds rng).y
          ∧ (gen_spawn_location wind bounds rng).y < bounds.top)
      ∨ (¬wind_towards_direction wind.wind ⟨1, 0⟩
          ∧ ¬wind_towards_direction wind.wind ⟨0, 1⟩
          ∧ ¬wind_towards_direction wind.wind ⟨-1, 0⟩
          ∧ (gen_spawn_location wind bounds rng).y = bounds.top
          ∧ bounds.left ≤ (gen_spawn_location wind bounds rng).x
          ∧ (gen_spawn_location wind bounds rng).x < bounds.right)) := by
  by_cases h1 : wind_towards_direction wind.wind ⟨1, 0⟩
  · have hc1 := (towards_east wind.wind hw).mp h1
    have h2 : ¬wind_towards_direction wind.wind ⟨0, 1⟩ := fun hcon => by
      have := (towards_north wind.wind hw).mp hcon; linarith [hc1.2, this.2]
    have h3 : ¬wind_towards_direction wind.wind ⟨-1, 0⟩ := fun hcon => by
      have := (towards_west wind.wind hw).mp hcon; linarith [hc1.1, this.1]
    have hp : gen_spawn_location wind bounds rng
        = ⟨bounds.left, rng bounds.bottom bounds.top, (HEIGHT : ℝ)⟩ := by
      rw [gen_spawn_location, if_pos h1]
    rw [hp]
    exact ⟨rfl, Or.inl ⟨h1, h2, h3, rfl, (hrng _ _ hbt).1, (hrng _ _ hbt).2⟩⟩
  · by_cases h2 : wind_towards_direction wind.wind ⟨0, 1⟩
    · have hc2 := (towards_north wind.wind hw).mp h2
      have h3 : ¬wind_towards_direction wind.wind ⟨-1, 0⟩ := fun hcon => by
        have := (towards_west wind.wind hw).mp hcon; linarith [hc2.2, this.2]
      have hp : gen_spawn_location wind bounds rng
          = ⟨rng bounds.left bounds.right, bounds.bottom, (HEIGHT : ℝ)⟩ := by
        rw [gen_spawn_location, if_neg h1, if_pos h2]
      rw [hp]
      exact ⟨rfl, Or.inr (Or.inl
        ⟨h1, h2, h3, rfl, (hrng _ _ hlr).1, (hrng _ _ hlr).2⟩)⟩
    · by_cases h3 : wind_towards_direction wind.wind ⟨-1, 0⟩
      · have hp : gen_spawn_location wind bounds rng
            = ⟨bounds.right, rng bounds.bottom bounds.top, (HEIGHT : ℝ)⟩ := by
          rw [gen_spawn_location, if_neg h1, if_neg h2, if_pos h3]
        rw [hp]
        exact ⟨rfl, Or.inr (Or.inr (Or.inl
          ⟨h1, h2, h3, rfl, (hrng _ _ hbt).1, (hrng _ _ hbt).2⟩))⟩
      · have hp : gen_spawn_location wind bounds rng
            = ⟨rng bounds.left bounds.right, bounds.top, (HEIGHT : ℝ)⟩ := by
          rw [gen_spawn_location, if_neg h1, if_neg h2, if_neg h3]
        rw [hp]
        exact ⟨rfl, Or.inr (Or.inr (Or.inr
          ⟨h1, h2, h3, rfl, (hrng _ _ hlr).1, (hrng _ _ hlr).2⟩))⟩

/-- Witness for C1: an eastward wind (1, 0) over the world [0, 1] x [0, 1],
with a rand draw that returns the lower end of the requested interval,
spawns on the left border at height `HEIGHT`. -/
theorem gen_spawn_location_upwind_witness :
    (gen_spawn_location ⟨⟨1, 0⟩⟩ ⟨0, 1, 0, 1⟩ (fun lo _ => lo)).z = (HEIGHT : ℝ)
    ∧ ((wind_towards_direction ⟨1, 0⟩ ⟨1, 0⟩
          ∧ ¬wind_towards_direction ⟨1, 0⟩ ⟨0, 1⟩
          ∧ ¬wind_towards_direction ⟨1, 0⟩ ⟨-1, 0⟩
          ∧ (gen_spawn_location ⟨⟨1, 0⟩⟩ ⟨0, 1, 0, 1⟩ (fun lo _ => lo)).x = 0
          ∧ (0 : ℝ) ≤ (gen_spawn_location ⟨⟨1, 0⟩⟩ ⟨0, 1, 0, 1⟩ (fun lo _ => lo)).y
          ∧ (gen_spawn_location ⟨⟨1, 0⟩⟩ ⟨0, 1, 0, 1⟩ (fun lo _ => lo)).y < 1)
      ∨ (¬wind_towards_direction ⟨1, 0⟩ ⟨1, 0⟩
          ∧ wind_towards_direction ⟨1, 0⟩ ⟨0, 1⟩
          ∧ ¬wind_towards_direction ⟨1, 0⟩ ⟨-1, 0⟩
          ∧ (gen_spawn_location ⟨⟨1, 0⟩⟩ ⟨0, 1, 0, 1⟩ (fun lo _ => lo)).y = 0
          ∧ (0 : ℝ) ≤ (gen_spawn_location ⟨⟨1, 0⟩⟩ ⟨0, 1, 0, 1⟩ (fun lo _ => lo)).x
          ∧ (gen_spawn_location ⟨⟨1, 0⟩⟩ ⟨0, 1, 0, 1⟩ (fun lo _ => lo)).x < 1)
      ∨ (¬wind_towards_direction ⟨1, 0⟩ ⟨1, 0⟩
          ∧ ¬wind_towards_direction ⟨1, 0⟩ ⟨0, 1⟩
          ∧ wind_towards_direction ⟨1, 0⟩ ⟨-1, 0⟩
          ∧ (gen_spawn_location ⟨⟨1, 0⟩⟩ ⟨0, 1, 0, 1⟩ (fun lo _ => lo)).x = 1
          ∧ (0 : ℝ) ≤ (gen_spawn_location ⟨⟨1, 0⟩⟩ ⟨0, 1, 0, 1⟩ (fun lo _ => lo)).y
          ∧ (gen_spawn_location ⟨⟨1, 0⟩⟩ ⟨0, 1, 0, 1⟩ (fun lo _ => lo)).y < 1)
      ∨ (¬wind_towards_direction ⟨1, 0⟩ ⟨1, 0⟩
          ∧ ¬wind_towards_direction ⟨1, 0⟩ ⟨0, 1⟩
          ∧ ¬wind_towards_direction ⟨1, 0⟩ ⟨-1, 0⟩
          ∧ (gen_spawn_location ⟨⟨1, 0⟩⟩ ⟨0, 1, 0, 1⟩ (fun lo _ => lo)).y = 1
          ∧ (0 : ℝ) ≤ (gen_spawn_location ⟨⟨1, 0⟩⟩ ⟨0, 1, 0, 1⟩ (fun lo _ => lo)).x
          ∧ (gen_spawn_location ⟨⟨1, 0⟩⟩ ⟨0, 1, 0, 1⟩ (fun lo _ => lo)).x < 1)) :=
  gen_spawn_location_upwind ⟨⟨1, 0⟩⟩ ⟨0, 1, 0, 1⟩ (fun lo _ => lo)
    (fun lo _ h => ⟨le_refl lo, h⟩) (by norm_num) (by norm_num) (by norm_num)

end Evoli
